import Mathlib

/-!
Verification of the module lifecycle and settings-synchronization engine of
the re621 userscript framework, as implemented in
`src/js/components/RE6Module.ts` (class `RE6Module` and class `Page`).

The embedding is shallow: the settings record (a JS object) becomes an
association list `Record`; the asynchronous storage backend becomes an
explicit `Storage` state threaded through the operations; JS `undefined`
becomes `Option`.  A runtime error (dereference of an undefined record,
`.split` on a non-string) is modelled as `none` of an outer `Option`.
-/

namespace RE6

/-- A settings value, standing for the JS values a settings record holds. -/
inductive Value where
  | bool (b : Bool)
  | nat (n : Nat)
  | str (s : String)
deriving DecidableEq, Repr

/-- JS truthiness of a `Value` (used where the source tests a value, e.g.
`this.enabled` inside `canInitialize`). -/
def Value.truthy : Value → Bool
  | .bool b => b
  | .nat n => n != 0
  | .str s => s != ""

/-- JS truthiness of a possibly-undefined value: `undefined` is falsy. -/
def truthyOpt : Option Value → Bool
  | none => false
  | some v => v.truthy

/-- A settings record: a JS object mapping property names to values.
Lookup takes the first occurrence of a key. -/
abbrev Record := List (String × Value)

/-- Property read `r[key]`: `none` is JS `undefined` (key absent). -/
def getV : Record → String → Option Value
  | [], _ => none
  | (k, w) :: rest, key => if k = key then some w else getV rest key

/-- Property write `r[key] = v`: replaces the value in place when the key
exists, appends the pair otherwise (JS object assignment). -/
def setV : Record → String → Value → Record
  | [], key, v => [(key, v)]
  | (k, w) :: rest, key, v =>
    if k = key then (key, v) :: rest else (k, w) :: setV rest key v

/-- Writes every pair of `updates` into `r` in order: the
`Object.keys(property).forEach` loop of `pushSettings`. -/
def setAll (r : Record) (updates : List (String × Value)) : Record :=
  updates.foldl (fun acc kv => setV acc kv.1 kv.2) r

/-- Default backfill, the loop of `loadSettingsValues`: for every key of the
default record whose value is `undefined` in `result`, the default value is
written into `result`. -/
def backfill (defaultValues stored : Record) : Record :=
  defaultValues.foldl
    (fun result kv => if getV result kv.1 = none then setV result kv.1 kv.2 else result)
    stored

theorem getV_setV_self (r : Record) (key : String) (v : Value) :
    getV (setV r key v) key = some v := by
  induction r with
  | nil => simp [setV, getV]
  | cons hd tl ih =>
    by_cases h : hd.1 = key
    · simp [setV, h, getV]
    · simp [setV, h, getV, ih]

theorem getV_setV_ne (r : Record) (key key' : String) (v : Value) (h : key ≠ key') :
    getV (setV r key v) key' = getV r key' := by
  induction r with
  | nil => simp [setV, getV, h]
  | cons hd tl ih =>
    by_cases hk : hd.1 = key
    · simp [setV, hk, getV, h]
    · simp [setV, hk, getV, ih]

theorem getV_backfill (D S : Record) (key : String) :
    getV (backfill D S) key = ((getV S key).orElse fun _ => getV D key) := by
  induction D generalizing S with
  | nil => cases h : getV S key <;> simp [backfill, Option.orElse, getV, h]
  | cons hd tl ih =>
    have step : backfill (hd :: tl) S =
        backfill tl (if getV S hd.1 = none then setV S hd.1 hd.2 else S) := by
      simp [backfill]
    rw [step]
    by_cases habs : getV S hd.1 = none
    · rw [if_pos habs, ih]
      by_cases hk : hd.1 = key
      · subst hk
        simp [getV_setV_self, habs, getV, Option.orElse]
      · rw [getV_setV_ne _ _ _ _ hk]
        cases h : getV S key <;> simp [Option.orElse, getV, hk, h]
    · rw [if_neg habs]
      rw [ih]
      by_cases hk : hd.1 = key
      · subst hk
        rcases Option.ne_none_iff_exists.mp habs with ⟨w, hw⟩
        simp [← hw, Option.orElse, getV]
      · cases h : getV S key <;> simp [Option.orElse, getV, hk, h]

theorem getV_isSome_of_mem (D : Record) (key : String) (v : Value)
    (h : (key, v) ∈ D) : getV D key ≠ none := by
  induction D with
  | nil => simp at h
  | cons hd tl ih =>
    rcases List.mem_cons.mp h with h1 | h2
    · subst h1
      simp [getV]
    · by_cases hk : hd.1 = key
      · simp [getV, hk]
      · simp [getV, hk, ih h2]

theorem backfill_of_keys_present (D S : Record)
    (h : ∀ kv ∈ D, getV S kv.1 ≠ none) : backfill D S = S := by
  induction D with
  | nil => simp [backfill]
  | cons hd tl ih =>
    have step : backfill (hd :: tl) S =
        backfill tl (if getV S hd.1 = none then setV S hd.1 hd.2 else S) := by
      simp [backfill]
    rw [step, if_neg (h hd (List.mem_cons_self hd tl))]
    exact ih fun kv hkv => h kv (List.mem_cons_of_mem hd hkv)

theorem backfill_idem (D S : Record) : backfill D (backfill D S) = backfill D S := by
  refine backfill_of_keys_present D (backfill D S) fun kv hkv => ?_
  rw [getV_backfill]
  cases h : getV S kv.1 with
  | some w => simp [Option.orElse]
  | none =>
    simpa [Option.orElse] using getV_isSome_of_mem D kv.1 kv.2 hkv

/-- Modelled from the spec: the external `XM.Storage` key/value backend
(`KeyValueStore`, spec §4.2; its code, `src/js/components/api/XM.ts`, is not
among the given files).  One module's slot is modelled: `stored` is the
record persisted under the module's key (`none` when the key is absent), and
`setOk` / `deleteOk` say whether a `setValue` / `deleteValue` call succeeds
(resolves `true`) or fails (resolves `false`, leaving storage unchanged). -/
structure Storage where
  stored : Option Record
  setOk : Bool
  deleteOk : Bool
deriving Repr

/-- Modelled from the spec: `getValue(key, defaultValue)` returns the stored
value, or `defaultValue` when the key is missing. -/
def Storage.getValue (st : Storage) (defaultValue : Record) : Record :=
  match st.stored with
  | some r => r
  | none => defaultValue

/-- Modelled from the spec: `setValue(key, value) -> success`. -/
def Storage.setValue (st : Storage) (r : Record) : Storage × Bool :=
  if st.setOk then ({ st with stored := some r }, true) else (st, false)

/-- Modelled from the spec: `deleteValue(key) -> success`. -/
def Storage.deleteValue (st : Storage) : Storage × Bool :=
  if st.deleteOk then ({ st with stored := none }, true) else (st, false)

/-- A page constraint: a `RegExp` is embedded abstractly as the predicate
`RegExp.prototype.test` computes on a path string. -/
abbrev Pattern := String → Bool

/-- The path with a single trailing `/` or `?` removed: the source's
`pathname.replace(+regex for a final slash or question mark+, "")` in
`Page.matches` (the anchor allows at most one match, at the end). -/
def stripTrailing (s : String) : String :=
  match s.data.getLast? with
  | some c => if c = '/' || c = '?' then String.mk s.data.dropLast else s
  | none => s

/-- `Page.matches(filter)`: true when at least one constraint tests true on
the current pathname with its trailing `/` or `?` stripped.  The source
folds `result = result || constraint.test(pathname)` over the filter list;
the current pathname is passed explicitly here. -/
def pageMatchesPatterns (filter : List Pattern) (pathname : String) : Bool :=
  let p := stripTrailing pathname
  filter.foldl (fun result constraint => result || constraint p) false

/-- A hotkey binding declared by a module (interface `Hotkey`): `keys` is the
settings property holding the pipe-separated combo string, `fnct` the handler
(identified by a number), `element` / `selector` the opaque pass-through
scope parameters. -/
structure Hotkey where
  keys : String
  fnct : Nat
  element : Option Nat := none
  selector : Option String := none
deriving DecidableEq, Repr

/-- What a combo is armed with: the module's real handler, or the no-op
closure the source registers when the page does not match. -/
inductive Handler where
  | real (fnct : Nat)
  | noop
deriving DecidableEq, Repr

/-- Modelled from the spec: one call to `Hotkeys.register` (the
`HotkeyRegistry`, spec §4.4; `src/js/components/data/Hotkeys.ts` is not among
the given files).  The registry maps combo to handler, last writer wins, so
the effect of a run is captured by the ordered list of these calls. -/
structure Registration where
  key : String
  handler : Handler
  element : Option Nat := none
  selector : Option String := none
deriving DecidableEq, Repr

/-- The mutable state of one `RE6Module` instance.  `settings` is `none`
before the first `loadSettingsCache` (the JS field is `undefined`);
`enabled` is `none` before `prepare` (ditto); `inited` is the source's
`initialized` flag; `defaults` is what the instance's (possibly overridden)
`getDefaultSettings()` returns. -/
structure ModuleState where
  settingsTag : String
  settings : Option Record
  waitForDOM : Bool
  enabled : Option Value
  inited : Bool
  constraint : List Pattern
  hotkeys : List Hotkey
  defaults : Record

/-- The base class `getDefaultSettings()`: `{ enabled: true }`. -/
def baseDefaultSettings : Record := [("enabled", Value.bool true)]

/-- The constructor: stores the constraint list (already normalized from the
`RegExp | RegExp[]` union), the DOM flag, and the settings tag (the override
when given, else the class name); `initialized` starts false, `settings` and
`enabled` start undefined, no hotkeys are declared yet. -/
def mkModule (constraint : List Pattern) (waitForDOM : Bool)
    (settingsTag : Option String) (className : String) (defaults : Record) :
    ModuleState :=
  { settingsTag := settingsTag.getD className
    settings := none
    waitForDOM := waitForDOM
    enabled := none
    inited := false
    constraint := constraint
    hotkeys := []
    defaults := defaults }

/-- `loadSettingsValues()`: reads the stored record (the default record when
absent), then backfills defaults for keys that are undefined in the result. -/
def loadSettingsValues (m : ModuleState) (st : Storage) : Record :=
  let defaultValues := m.defaults
  let result := st.getValue defaultValues
  backfill defaultValues result

/-- `loadSettingsCache()`: writes `loadSettingsValues()` into the cache and
resolves `true` (unconditionally, in the source). -/
def loadSettingsCache (m : ModuleState) (st : Storage) : ModuleState × Bool :=
  ({ m with settings := some (loadSettingsValues m st) }, true)

/-- The non-fresh, single-property `fetchSettings(property)`:
`this.settings[property]`.  The outer `Option` is `none` exactly when the
cache has never been loaded (`this.settings` is `undefined` and the property
read is a runtime `TypeError`); the inner `Option` is the property's value,
`none` for an absent key.  It takes no `Storage`: the read does no I/O. -/
def fetchSettings (m : ModuleState) (property : String) : Option (Option Value) :=
  match m.settings with
  | none => none
  | some r => some (getV r property)

/-- The non-fresh, multi-property `fetchSettings(properties)`: builds an
object with one (possibly undefined) entry per requested property. -/
def fetchSettingsMulti (m : ModuleState) (properties : List String) :
    Option (List (String × Option Value)) :=
  match m.settings with
  | none => none
  | some r => some (properties.map fun entry => (entry, getV r entry))

/-- The fresh `fetchSettings(property, true)`: awaits `loadSettingsCache`,
then reads the (now loaded) cache. -/
def fetchSettingsFresh (m : ModuleState) (st : Storage) (property : String) :
    ModuleState × Option Value :=
  let m1 := (loadSettingsCache m st).1
  (m1, (fetchSettings m1 property).join)

/-- `prepare()`: loads the settings cache, then copies the `enabled` setting
into the separate in-memory field. -/
def prepare (m : ModuleState) (st : Storage) : ModuleState :=
  let m1 := (loadSettingsCache m st).1
  { m1 with enabled := (fetchSettings m1 "enabled").join }

/-- `isInitialized()`. -/
def isInited (m : ModuleState) : Bool := m.inited

/-- `pageMatchesFilter()`: an empty constraint list short-circuits to true,
else `Page.matches(constraint)` on the current pathname. -/
def pageMatchesFilter (m : ModuleState) (pathname : String) : Bool :=
  m.constraint.length == 0 || pageMatchesPatterns m.constraint pathname

/-- `canInitialize()`: `!this.initialized && this.pageMatchesFilter() &&
this.enabled` (the last conjunct by JS truthiness of the cached field). -/
def canInit (m : ModuleState) (pathname : String) : Bool :=
  !m.inited && pageMatchesFilter m pathname && truthyOpt m.enabled

/-- `create()`: sets the `initialized` flag. -/
def create (m : ModuleState) : ModuleState := { m with inited := true }

/-- `destroy()`: clears the `initialized` flag. -/
def destroy (m : ModuleState) : ModuleState := { m with inited := false }

/-- `isEnabled()`: returns the in-memory field as-is. -/
def isEnabled (m : ModuleState) : Option Value := m.enabled

/-- `setEnabled(enabled)`: writes the in-memory field only. -/
def setEnabled (m : ModuleState) (enabled : Bool) : ModuleState :=
  { m with enabled := some (Value.bool enabled) }

/-- `saveSettingsCache()`: `XM.Storage.setValue` on the cached record,
returning the storage call's success. -/
def saveSettingsCache (m : ModuleState) (st : Storage) : Storage × Bool :=
  st.setValue (m.settings.getD [])

/-- The object form of `pushSettings(property)`: awaits `loadSettingsCache`,
writes every key of the argument into the cache, then persists the full
record with `saveSettingsCache`, whose success is the result. -/
def pushSettings (m : ModuleState) (st : Storage)
    (updates : List (String × Value)) : ModuleState × Storage × Bool :=
  let m1 := (loadSettingsCache m st).1
  let m2 := { m1 with settings := some (setAll (m1.settings.getD []) updates) }
  let save := saveSettingsCache m2 st
  (m2, save.1, save.2)

/-- `clearSettings()`: `XM.Storage.deleteValue`, then (whatever the delete
resolved to — the source's `.then` callback takes no argument, so the delete
result is discarded) `loadSettingsCache()`, whose result is returned. -/
def clearSettings (m : ModuleState) (st : Storage) : ModuleState × Storage × Bool :=
  let del := st.deleteValue
  let load := loadSettingsCache m del.1
  (load.1, del.1, load.2)

/-- `refreshSettings()`: just `loadSettingsCache()`. -/
def refreshSettings (m : ModuleState) (st : Storage) : ModuleState × Bool :=
  loadSettingsCache m st

/-- `getSavedSettings()`: the storage key and the raw stored record (default
`\x7b\x7d`), bypassing the backfilled cache. -/
def getSavedSettings (m : ModuleState) (st : Storage) : String × Record :=
  ("re621." ++ m.settingsTag, st.getValue [])

/-- JS `String.prototype.split` with a one-character separator and no limit:
adjacent separators and a leading/trailing separator yield empty segments,
and splitting the empty string yields one empty segment. -/
def splitCh (sep : Char) : List Char → List (List Char)
  | [] => [[]]
  | c :: rest =>
    let r := splitCh sep rest
    if c = sep then [] :: r
    else
      match r with
      | [] => [[c]]
      | hd :: tl => (c :: hd) :: tl

/-- `combo.split("|")` as a list of segment strings. -/
def jsSplit (s : String) (sep : Char) : List String :=
  (splitCh sep s.data).map String.mk

/-- The registrations one hotkey binding produces in `resetHotkeys()`: the
configured combo string is split on `|`; an empty segment is skipped; every
other segment is registered to the real handler (with the binding's scope
parameters) when the page matches, to a fresh no-op closure otherwise. -/
def hotkeyRegs (enabled : Bool) (value : Hotkey) (combo : String) :
    List Registration :=
  (jsSplit combo '|').filterMap fun key =>
    if key = "" then none
    else if enabled then
      some { key := key, handler := Handler.real value.fnct,
             element := value.element, selector := value.selector }
    else some { key := key, handler := Handler.noop }

/-- The `forEach` body of `resetHotkeys` over the declared bindings:
`this.fetchSettings(value.keys).split("|")` requires the fetched setting to
be a string — anything else (an undefined property, a non-string value) is a
runtime `TypeError`, modelled as `none`. -/
def resetHotkeysAux (m1 : ModuleState) (enabled : Bool) :
    List Hotkey → Option (List Registration)
  | [] => some []
  | value :: rest =>
    match fetchSettings m1 value.keys with
    | some (some (Value.str combo)) =>
      match resetHotkeysAux m1 enabled rest with
      | some regs => some (hotkeyRegs enabled value combo ++ regs)
      | none => none
    | _ => none

/-- `resetHotkeys()`: awaits `loadSettingsCache`, computes the page match
(the local `enabled` of the source — NOT the module's enabled field), and
performs the registrations of every declared binding in order.  The result
is the updated module state and the ordered `Hotkeys.register` calls
(`none` when a binding's combo setting is not a string). -/
def resetHotkeys (m : ModuleState) (st : Storage) (pathname : String) :
    ModuleState × Option (List Registration) :=
  let m1 := (loadSettingsCache m st).1
  let enabled := pageMatchesFilter m1 pathname
  (m1, resetHotkeysAux m1 enabled m1.hotkeys)

/-- `registerHotkeys(...hotkeys)`: appends the bindings, then
`resetHotkeys()`. -/
def registerHotkeys (m : ModuleState) (st : Storage) (pathname : String)
    (hotkeys : List Hotkey) : ModuleState × Option (List Registration) :=
  resetHotkeys { m with hotkeys := m.hotkeys ++ hotkeys } st pathname

theorem foldl_or_eq_any {α : Type} (f : α → Bool) (l : List α) (b : Bool) :
    l.foldl (fun r c => r || f c) b = (b || l.any f) := by
  induction l generalizing b with
  | nil => simp
  | cons hd tl ih => simp [List.any_cons, ih, Bool.or_assoc]

/-- C2: the default backfill of `loadSettingsValues` is idempotent; every
stored value survives it unchanged (in particular no stored key is pruned,
whether or not the defaults still know it), and a default key absent from
the stored record comes out with the default's value. -/
theorem C2_backfill_properties (D S : Record) :
    backfill D (backfill D S) = backfill D S
    ∧ (∀ key v, getV S key = some v → getV (backfill D S) key = some v)
    ∧ (∀ key, getV S key = none → getV (backfill D S) key = getV D key) := by
  refine ⟨backfill_idem D S, ?_, ?_⟩
  · intro key v h
    rw [getV_backfill, h]
    rfl
  · intro key h
    rw [getV_backfill, h]
    cases hD : getV D key <;> simp [Option.orElse]

/-- C2, evaluated: with defaults D = (enabled: true, x: 1) and stored
record S = (y: 2), backfilling twice equals backfilling once, y keeps its
stored value, and the absent default x is added with its default value. -/
theorem C2_backfill_properties_witness :
    (backfill [("enabled", Value.bool true), ("x", Value.nat 1)]
        (backfill [("enabled", Value.bool true), ("x", Value.nat 1)] [("y", Value.nat 2)])
      = backfill [("enabled", Value.bool true), ("x", Value.nat 1)] [("y", Value.nat 2)])
    ∧ getV (backfill [("enabled", Value.bool true), ("x", Value.nat 1)]
        [("y", Value.nat 2)]) "y" = some (Value.nat 2)
    ∧ getV (backfill [("enabled", Value.bool true), ("x", Value.nat 1)]
        [("y", Value.nat 2)]) "x"
      = getV [("enabled", Value.bool true), ("x", Value.nat 1)] "x" :=
  ⟨(C2_backfill_properties _ _).1,
   (C2_backfill_properties _ _).2.1 "y" (Value.nat 2) (by decide),
   (C2_backfill_properties _ _).2.2 "x" (by decide)⟩

/-- C6: `Page.matches(P)` is true exactly when some pattern of P tests true
on the pathname with a single trailing slash or question mark stripped, and
at the lifecycle layer `pageMatchesFilter` of a module with an empty
constraint list is true on every page (the source short-circuits before the
matcher). -/
theorem C6_page_match (P : List Pattern) (p : String) (m : ModuleState)
    (hc : m.constraint = []) :
    (pageMatchesPatterns P p = true ↔ ∃ c ∈ P, c (stripTrailing p) = true)
    ∧ pageMatchesFilter m p = true := by
  constructor
  · unfold pageMatchesPatterns
    rw [foldl_or_eq_any]
    simp [List.any_eq_true]
  · simp [pageMatchesFilter, hc]

/-- C6, evaluated: the pattern testing equality with "/posts" matches the
path "/posts/" (trailing slash stripped), and a module constructed with no
constraint matches an arbitrary page. -/
theorem C6_page_match_witness :
    (pageMatchesPatterns [fun s => s == "/posts"] "/posts/" = true
      ↔ ∃ c ∈ [fun s => s == "/posts"], c (stripTrailing "/posts/") = true)
    ∧ pageMatchesFilter (mkModule [] false none "AnyModule" baseDefaultSettings)
        "/forum_topics?page=2" = true :=
  C6_page_match [fun s => s == "/posts"] "/posts/"
    (mkModule [] false none "AnyModule" baseDefaultSettings) rfl

/-- C1: `canInitialize()` is true exactly when the module is not yet
initialized, the page matches the constraint filter, and the cached enabled
value is truthy; after `create()` it is false whatever the enablement and
page match are, and after `destroy()` it is again decided by page match and
enablement alone. -/
theorem C1_canInit_iff (m : ModuleState) (p : String) :
    (canInit m p = true ↔
      m.inited = false ∧ pageMatchesFilter m p = true ∧ truthyOpt m.enabled = true)
    ∧ canInit (create m) p = false
    ∧ canInit (destroy (create m)) p
        = (pageMatchesFilter m p && truthyOpt m.enabled) := by
  refine ⟨?_, ?_, ?_⟩
  · simp [canInit, Bool.and_eq_true, Bool.not_eq_true']
    tauto
  · simp [canInit, create]
  · simp [canInit, destroy, create, pageMatchesFilter]

/-- C9: `setEnabled` rewrites the in-memory enabled field and nothing else
(it does not even receive the storage state); `isEnabled` merely reads the
field; and the enabled field survives `loadSettingsCache`, `pushSettings`,
`clearSettings`, `refreshSettings`, `resetHotkeys`, `create` and `destroy`
unchanged — it is written only by `prepare` and `setEnabled`. -/
theorem C9_enabled_frame (m : ModuleState) (st : Storage) (b : Bool)
    (U : List (String × Value)) (p : String) :
    setEnabled m b = { m with enabled := some (Value.bool b) }
    ∧ (setEnabled m b).settings = m.settings
    ∧ (setEnabled m b).inited = m.inited
    ∧ isEnabled m = m.enabled
    ∧ (loadSettingsCache m st).1.enabled = m.enabled
    ∧ (pushSettings m st U).1.enabled = m.enabled
    ∧ (clearSettings m st).1.enabled = m.enabled
    ∧ (refreshSettings m st).1.enabled = m.enabled
    ∧ (resetHotkeys m st p).1.enabled = m.enabled
    ∧ (create m).enabled = m.enabled
    ∧ (destroy m).enabled = m.enabled :=
  ⟨rfl, rfl, rfl, rfl, rfl, rfl, rfl, rfl, rfl, rfl, rfl⟩

theorem resetHotkeysAux_settings_congr (m1 m2 : ModuleState) (enabled : Bool)
    (h : m1.settings = m2.settings) (l : List Hotkey) :
    resetHotkeysAux m1 enabled l = resetHotkeysAux m2 enabled l := by
  induction l with
  | nil => rfl
  | cons hd tl ih => simp [resetHotkeysAux, fetchSettings, h, ih]

/-- C7: the registrations `resetHotkeys()` performs do not depend on the
module's enabled field — two states identical except for `enabled` produce
exactly the same `Hotkeys.register` calls; arming is gated by the page
match alone. -/
theorem C7_resetHotkeys_enabled_indep (m : ModuleState) (st : Storage)
    (p : String) (e : Option Value) :
    (resetHotkeys { m with enabled := e } st p).2 = (resetHotkeys m st p).2 := by
  exact resetHotkeysAux_settings_congr
    (loadSettingsCache { m with enabled := e } st).1
    (loadSettingsCache m st).1
    (pageMatchesFilter (loadSettingsCache m st).1 p) rfl
    (loadSettingsCache m st).1.hotkeys

/-- A concrete module instance for evaluation: empty constraint, base class
defaults, no override of the settings tag. -/
def exModule : ModuleState :=
  mkModule [] false none "ExampleModule" baseDefaultSettings

/-- A concrete storage state: nothing stored yet, writes and deletes
succeed. -/
def exStorage : Storage := { stored := none, setOk := true, deleteOk := true }

/-- A concrete storage state whose `setValue` fails (resolves false). -/
def exStorageSetFail : Storage :=
  { stored := none, setOk := false, deleteOk := true }

/-- A concrete storage state holding a customized record and whose
`deleteValue` fails (resolves false). -/
def exStorageDelFail : Storage :=
  { stored := some [("a", Value.nat 1), ("enabled", Value.bool false)],
    setOk := true, deleteOk := false }

/-- C4, the code at the failing input: `clearSettings()` discards the result
of `XM.Storage.deleteValue` (its `.then` callback ignores the argument), so
on a storage whose delete fails it still resolves `true` — indeed
`loadSettingsCache` resolves `true` unconditionally — while the stored
record survives and the reloaded cache still shows the old value instead of
the defaults.  This contradicts the method's own documentation ("True if
the settings were cleared successfully, false otherwise") and the spec's
error-handling design. -/
theorem C4_clearSettings_delete_failure :
    (clearSettings exModule exStorageDelFail).2.2 = true
    ∧ (clearSettings exModule exStorageDelFail).2.1.stored
        = some [("a", Value.nat 1), ("enabled", Value.bool false)]
    ∧ fetchSettings (clearSettings exModule exStorageDelFail).1 "a"
        = some (some (Value.nat 1))
    ∧ fetchSettings (clearSettings exModule exStorageDelFail).1 "enabled"
        = some (some (Value.bool false)) := by
  refine ⟨rfl, rfl, by decide, by decide⟩

/-- C8: when the storage write fails, `pushSettings` resolves false and the
storage state is untouched, yet the pushed pair is already merged into the
in-memory cache and visible to a non-fresh `fetchSettings` — the cache runs
ahead of storage. -/
theorem C8_push_cache_ahead (m : ModuleState) (st : Storage) (x : String)
    (v : Value) (hfail : st.setOk = false) :
    (pushSettings m st [(x, v)]).2.2 = false
    ∧ (pushSettings m st [(x, v)]).2.1 = st
    ∧ fetchSettings (pushSettings m st [(x, v)]).1 x = some (some v) := by
  refine ⟨?_, ?_, ?_⟩
  · simp [pushSettings, saveSettingsCache, Storage.setValue, hfail]
  · simp [pushSettings, saveSettingsCache, Storage.setValue, hfail]
  · simp [pushSettings, fetchSettings, setAll, getV_setV_self]

/-- C8, evaluated on a concrete module and a storage whose write fails. -/
theorem C8_push_cache_ahead_witness :
    (pushSettings exModule exStorageSetFail [("x", Value.nat 7)]).2.2 = false
    ∧ (pushSettings exModule exStorageSetFail [("x", Value.nat 7)]).2.1
        = exStorageSetFail
    ∧ fetchSettings (pushSettings exModule exStorageSetFail
        [("x", Value.nat 7)]).1 "x" = some (some (Value.nat 7)) :=
  C8_push_cache_ahead exModule exStorageSetFail "x" (Value.nat 7) rfl

/-- C5: for every key and value, a pushed value is immediately readable
from the cache without a fresh reload, and (with the write succeeding) it
really is persisted to storage; two sequential pushes of disjoint one-key
records on a fresh store with the base defaults leave exactly the record
(enabled: true, a: va, b: vb); and a `clearSettings` sequenced after the
push discards the pushed, stored value — the non-fresh `fetchSettings(x)`
that follows it returns the default value for x, undefined when the
defaults have no such key. -/
theorem C5_settings_roundtrip (m : ModuleState) (st : Storage)
    (x a b : String) (v va vb : Value)
    (hset : st.setOk = true) (hdel : st.deleteOk = true)
    (ha : a ≠ "enabled") (hb : b ≠ "enabled") (hab : a ≠ b) :
    fetchSettings (pushSettings m st [(x, v)]).1 x = some (some v)
    ∧ (st.stored = none → m.defaults = [("enabled", Value.bool true)] →
        (pushSettings (pushSettings m st [(a, va)]).1
            (pushSettings m st [(a, va)]).2.1 [(b, vb)]).1.settings
          = some [("enabled", Value.bool true), (a, va), (b, vb)])
    ∧ getV (((pushSettings m st [(x, v)]).2.1.stored).getD []) x = some v
    ∧ fetchSettings (clearSettings (pushSettings m st [(x, v)]).1
          (pushSettings m st [(x, v)]).2.1).1 x = some (getV m.defaults x) := by
  refine ⟨?_, ?_, ?_, ?_⟩
  · simp [pushSettings, fetchSettings, setAll, getV_setV_self]
  · intro hstored hdef
    simp [pushSettings, loadSettingsCache, loadSettingsValues, Storage.getValue,
      hstored, hdef, backfill, getV, setV, setAll, saveSettingsCache,
      Storage.setValue, hset, Ne.symm ha, Ne.symm hb, hab]
  · simp [pushSettings, saveSettingsCache, Storage.setValue, hset, setAll,
      getV_setV_self]
  · simp [pushSettings, saveSettingsCache, Storage.setValue, hset,
      clearSettings, Storage.deleteValue, hdel, loadSettingsCache,
      loadSettingsValues, Storage.getValue, fetchSettings, getV_backfill]
    cases getV m.defaults x <;> simp [Option.orElse]

/-- C5, evaluated: the scenario of the spec — a push of x readable at once
and persisted; pushes of a and b in sequence leaving
(enabled: true, a: 1, b: 2); and a clear sequenced after the push of x,
after which the fetch falls back to the defaults (undefined here, since the
base defaults have no x). -/
theorem C5_settings_roundtrip_witness :
    fetchSettings (pushSettings exModule exStorage [("x", Value.nat 1)]).1 "x"
        = some (some (Value.nat 1))
    ∧ (exStorage.stored = none →
        exModule.defaults = [("enabled", Value.bool true)] →
        (pushSettings (pushSettings exModule exStorage [("a", Value.nat 1)]).1
            (pushSettings exModule exStorage [("a", Value.nat 1)]).2.1
            [("b", Value.nat 2)]).1.settings
          = some [("enabled", Value.bool true), ("a", Value.nat 1),
                  ("b", Value.nat 2)])
    ∧ getV (((pushSettings exModule exStorage
          [("x", Value.nat 1)]).2.1.stored).getD []) "x" = some (Value.nat 1)
    ∧ fetchSettings (clearSettings
          (pushSettings exModule exStorage [("x", Value.nat 1)]).1
          (pushSettings exModule exStorage [("x", Value.nat 1)]).2.1).1 "x"
        = some (getV exModule.defaults "x") :=
  C5_settings_roundtrip exModule exStorage "x" "a" "b" (Value.nat 1)
    (Value.nat 1) (Value.nat 2) rfl rfl (by decide) (by decide) (by decide)

theorem resetHotkeysAux_single (m1 : ModuleState) (enabled : Bool)
    (h : Hotkey) (lv : Record) (hset : m1.settings = some lv)
    (s : String) (hs : getV lv h.keys = some (Value.str s)) :
    resetHotkeysAux m1 enabled [h] = some (hotkeyRegs enabled h s) := by
  simp [resetHotkeysAux, fetchSettings, hset, hs]

theorem hotkeyRegs_key_ne_empty (enabled : Bool) (value : Hotkey)
    (combo : String) (reg : Registration)
    (hmem : reg ∈ hotkeyRegs enabled value combo) : reg.key ≠ "" := by
  simp only [hotkeyRegs, List.mem_filterMap] at hmem
  obtain ⟨key, -, hf⟩ := hmem
  by_cases hk : key = ""
  · simp [hk] at hf
  · cases enabled <;> simp [hk] at hf <;> simp [← hf, hk]

/-- C3: for a module with one declared hotkey binding whose configured
combo setting is the string s, `resetHotkeys()` splits s on the pipe and,
when the page matches, registers every non-empty segment to the real
handler (with the binding's scope parameters); when the page does not
match, it registers every non-empty segment to a no-op; and no performed
registration — armed or disarmed — ever carries the empty combo, however
many empty segments (as in "a||b") the split produces. -/
theorem C3_resetHotkeys_arming (m : ModuleState) (st : Storage) (p : String)
    (h : Hotkey) (s : String)
    (hh : m.hotkeys = [h])
    (hs : getV (loadSettingsValues m st) h.keys = some (Value.str s)) :
    (pageMatchesFilter m p = true →
      (resetHotkeys m st p).2 = some ((jsSplit s '|').filterMap fun key =>
        if key = "" then none
        else some { key := key, handler := Handler.real h.fnct,
                    element := h.element, selector := h.selector }))
    ∧ (pageMatchesFilter m p = false →
      (resetHotkeys m st p).2 = some ((jsSplit s '|').filterMap fun key =>
        if key = "" then none
        else some { key := key, handler := Handler.noop }))
    ∧ (∀ regs, (resetHotkeys m st p).2 = some regs →
        ∀ reg ∈ regs, reg.key ≠ "") := by
  have hstep := resetHotkeysAux_single (loadSettingsCache m st).1
    (pageMatchesFilter (loadSettingsCache m st).1 p) h
    (loadSettingsValues m st) rfl s hs
  have hcore : (resetHotkeys m st p).2
      = some (hotkeyRegs (pageMatchesFilter m p) h s) := by
    calc (resetHotkeys m st p).2
        = resetHotkeysAux (loadSettingsCache m st).1
            (pageMatchesFilter (loadSettingsCache m st).1 p)
            m.hotkeys := rfl
      _ = resetHotkeysAux (loadSettingsCache m st).1
            (pageMatchesFilter (loadSettingsCache m st).1 p) [h] := by rw [hh]
      _ = some (hotkeyRegs (pageMatchesFilter m p) h s) := hstep
  refine ⟨?_, ?_, ?_⟩
  · intro hpm
    rw [hcore, hpm]
    simp [hotkeyRegs]
  · intro hpm
    rw [hcore, hpm]
    simp [hotkeyRegs]
  · intro regs hregs reg hmem
    rw [hcore] at hregs
    cases hregs
    exact hotkeyRegs_key_ne_empty _ _ _ _ hmem

/-- A concrete module with one declared hotkey binding whose combo setting
defaults to "a||b" (two real segments around an empty one). -/
def exHotkeyModule : ModuleState :=
  { mkModule [] false none "HotkeyModule"
      [("enabled", Value.bool true), ("hotkeyToggle", Value.str "a||b")] with
    hotkeys := [{ keys := "hotkeyToggle", fnct := 5 }] }

/-- C3, evaluated: the binding with combo "a||b" on a matching page (empty
constraint) arms exactly "a" and "b" and never the empty segment. -/
theorem C3_resetHotkeys_arming_witness :
    (pageMatchesFilter exHotkeyModule "/posts" = true →
      (resetHotkeys exHotkeyModule exStorage "/posts").2
        = some ((jsSplit "a||b" '|').filterMap fun key =>
          if key = "" then none
          else some { key := key, handler := Handler.real 5,
                      element := none, selector := none }))
    ∧ (pageMatchesFilter exHotkeyModule "/posts" = false →
      (resetHotkeys exHotkeyModule exStorage "/posts").2
        = some ((jsSplit "a||b" '|').filterMap fun key =>
          if key = "" then none
          else some { key := key, handler := Handler.noop }))
    ∧ (∀ regs, (resetHotkeys exHotkeyModule exStorage "/posts").2 = some regs →
        ∀ reg ∈ regs, reg.key ≠ "") :=
  C3_resetHotkeys_arming exHotkeyModule exStorage "/posts"
    { keys := "hotkeyToggle", fnct := 5 } "a||b" rfl (by decide)

/-- A concrete module whose settings cache has been populated. -/
def exLoadedModule : ModuleState :=
  { exModule with settings := some [("q", Value.nat 3)] }

/-- C10: a freshly constructed module has an undefined settings record and
both non-fresh read forms fail on it (the property access throws); once the
record is loaded the non-fresh reads are total, return the cached value —
undefined for an absent key — and involve no storage access (they do not
take the storage state at all); and every loading operation (the cache
load, `prepare`, `pushSettings`, `clearSettings`, `refreshSettings`, a
fresh fetch) leaves the record defined. -/
theorem C10_fetch_needs_load (c : List Pattern) (w : Bool)
    (tag : Option String) (cn : String) (D : Record) (m : ModuleState)
    (st : Storage) (k : String) (ks : List String)
    (U : List (String × Value)) (r : Record) (hr : m.settings = some r) :
    (mkModule c w tag cn D).settings = none
    ∧ fetchSettings (mkModule c w tag cn D) k = none
    ∧ fetchSettingsMulti (mkModule c w tag cn D) ks = none
    ∧ fetchSettings m k = some (getV r k)
    ∧ fetchSettingsMulti m ks = some (ks.map fun entry => (entry, getV r entry))
    ∧ (loadSettingsCache m st).1.settings = some (loadSettingsValues m st)
    ∧ (prepare m st).settings = some (loadSettingsValues m st)
    ∧ ((pushSettings m st U).1.settings).isSome = true
    ∧ ((clearSettings m st).1.settings).isSome = true
    ∧ ((refreshSettings m st).1.settings).isSome = true
    ∧ (fetchSettingsFresh m st k).1.settings = some (loadSettingsValues m st) := by
  refine ⟨rfl, rfl, rfl, ?_, ?_, rfl, rfl, rfl, rfl, rfl, rfl⟩
  · simp [fetchSettings, hr]
  · simp [fetchSettingsMulti, hr]

/-- C10, evaluated on a fresh module and on one with a loaded cache. -/
theorem C10_fetch_needs_load_witness :
    (mkModule [] false none "FreshModule" baseDefaultSettings).settings = none
    ∧ fetchSettings (mkModule [] false none "FreshModule" baseDefaultSettings)
        "q" = none
    ∧ fetchSettingsMulti (mkModule [] false none "FreshModule"
        baseDefaultSettings) ["q", "z"] = none
    ∧ fetchSettings exLoadedModule "q" = some (getV [("q", Value.nat 3)] "q")
    ∧ fetchSettingsMulti exLoadedModule ["q", "z"]
        = some (["q", "z"].map fun entry => (entry, getV [("q", Value.nat 3)] entry))
    ∧ (loadSettingsCache exLoadedModule exStorage).1.settings
        = some (loadSettingsValues exLoadedModule exStorage)
    ∧ (prepare exLoadedModule exStorage).settings
        = some (loadSettingsValues exLoadedModule exStorage)
    ∧ ((pushSettings exLoadedModule exStorage [("z", Value.nat 9)]).1.settings).isSome
        = true
    ∧ ((clearSettings exLoadedModule exStorage).1.settings).isSome = true
    ∧ ((refreshSettings exLoadedModule exStorage).1.settings).isSome = true
    ∧ (fetchSettingsFresh exLoadedModule exStorage "q").1.settings
        = some (loadSettingsValues exLoadedModule exStorage) :=
  C10_fetch_needs_load [] false none "FreshModule" baseDefaultSettings
    exLoadedModule exStorage "q" ["q", "z"] [("z", Value.nat 9)]
    [("q", Value.nat 3)] rfl

end RE6
